import Mathlib

set_option maxRecDepth 100000

/-!
Shallow embedding of the Distributor-Quarter Risk Analytics Pipeline
(Invenory_Backend): time-keyed aggregation, risk classification,
quarter-over-quarter trends, alert generation/deduplication, and the
correlation/relationship engine, together with theorems settling the
spec claims against these definitions.

Numeric model: pandas float columns are modelled by exact rationals; the
IEEE special values that the pipeline can actually produce (NaN from
0/0 or missing data, ±Infinity from division by zero) are modelled by
the inductive `FVal`.  Missing/unparseable numeric cells are `Option`s.
-/

/-- Two-decimal rounding, the embedding of `.round(2)`. -/
def round2 (q : ℚ) : ℚ := ((round (q * 100) : ℤ) : ℚ) / 100

/-- A pandas float cell: a finite rational, NaN, or a signed infinity. -/
inductive FVal where
  | nan
  | inf
  | ninf
  | fin (q : ℚ)
deriving DecidableEq, Repr

/-- IEEE-style `x >= c` for a float cell: NaN compares false. -/
def FVal.ge (x : FVal) (c : ℚ) : Prop :=
  match x with
  | .nan => False
  | .inf => True
  | .ninf => False
  | .fin q => c ≤ q

/-- IEEE-style `x > c` for a float cell: NaN compares false. -/
def FVal.gt (x : FVal) (c : ℚ) : Prop :=
  match x with
  | .nan => False
  | .inf => True
  | .ninf => False
  | .fin q => c < q

/-- IEEE-style `x < c` for a float cell: NaN compares false. -/
def FVal.lt (x : FVal) (c : ℚ) : Prop :=
  match x with
  | .nan => False
  | .inf => False
  | .ninf => True
  | .fin q => q < c

instance : (x : FVal) → (c : ℚ) → Decidable (FVal.ge x c)
  | .nan, _ => isFalse id
  | .inf, _ => isTrue trivial
  | .ninf, _ => isFalse id
  | .fin q, c => inferInstanceAs (Decidable (c ≤ q))

instance : (x : FVal) → (c : ℚ) → Decidable (FVal.gt x c)
  | .nan, _ => isFalse id
  | .inf, _ => isTrue trivial
  | .ninf, _ => isFalse id
  | .fin q, c => inferInstanceAs (Decidable (c < q))

instance : (x : FVal) → (c : ℚ) → Decidable (FVal.lt x c)
  | .nan, _ => isFalse id
  | .inf, _ => isFalse id
  | .ninf, _ => isTrue trivial
  | .fin q, c => inferInstanceAs (Decidable (q < c))

/-- The five risk statuses of `thresholds.distributor_status`. -/
inductive RiskStatus where
  | HighRisk
  | Risk
  | VeryGood
  | Good
  | NotClassified
deriving DecidableEq, Repr

/-- The strings the source uses for each status. -/
def statusStr : RiskStatus → String
  | .HighRisk => "High Risk"
  | .Risk => "Risk"
  | .VeryGood => "Very Good"
  | .Good => "Good"
  | .NotClassified => "Not Classified"

/-- Embedding of `thresholds.distributor_status`: limit-based tier first
(when `pct_from_limit` is not NaN), then trend-based tier (when
`pct_change` is not NaN), else `Not Classified`. -/
def distributor_status (pfl pch : FVal) : RiskStatus :=
  if pfl ≠ .nan then
    if pfl.ge 120 then .HighRisk
    else if pfl.ge 100 then .Risk
    else if pfl.lt 80 then .VeryGood
    else .Good
  else if pch ≠ .nan then
    if pch.gt 10 then .HighRisk
    else if pch.gt 0 then .Risk
    else if pch.lt (-10) then .VeryGood
    else .Good
  else .NotClassified

/-- Embedding of `thresholds.waste_trend_arrow`. -/
def waste_trend_arrow (delta : FVal) : String :=
  if delta = .nan then ""
  else if delta.gt 0 then "⬆️ 🔴"
  else if delta.lt 0 then "⬇️ 🟢"
  else "➖"

/-! ### String ordering (python string comparison, by code points) -/

/-- Strict lexicographic order on strings by code points, the order
pandas uses when sorting string-typed key columns. -/
def strLt (a b : String) : Prop := List.Lex (fun c d => c < d) a.data b.data

instance : DecidableRel strLt := fun a b => by unfold strLt; infer_instance

/-- Reflexive closure of `strLt`. -/
def strLe (a b : String) : Prop := strLt a b ∨ a = b

instance : DecidableRel strLe := fun a b => by unfold strLe; infer_instance

/-- Lexicographic combination: strict order on the first component,
falling through to a second-component comparison on ties.  Used to
model pandas multi-column ascending sorts. -/
def lexLe2 {α β : Type} (ltA : α → α → Prop) (leB : β → β → Prop) (x y : α × β) : Prop :=
  ltA x.1 y.1 ∨ (x.1 = y.1 ∧ leB x.2 y.2)

instance {α β : Type} (ltA : α → α → Prop) (leB : β → β → Prop) [DecidableRel ltA]
    [DecidableEq α] [DecidableRel leB] : DecidableRel (lexLe2 ltA leB) :=
  fun x y => by unfold lexLe2; infer_instance

/-! ### Distributor-quarter aggregation
(`app/utils/distributor_quarter_transform.build_distributor_quarter_df`) -/

/-- One row of the EDA dataframe handed to `build_distributor_quarter_df`;
only the eight required columns are modelled. -/
structure EdaRow where
  distributorId : ℤ
  usState : String
  yearOnly : ℤ
  quarter : String
  deliveriesQty : ℚ
  returnsQty : ℚ
  wasteAllowanceQty : ℚ
  wasteQtySum : ℚ
deriving DecidableEq, Repr

/-- An aggregate row after the groupby/sum stage, with `pct_from_limit`. -/
structure AggRow where
  distributorId : ℤ
  usState : String
  yearOnly : ℤ
  quarter : String
  total_deliveries : ℚ
  total_returns : ℚ
  total_waste_allowance : ℚ
  total_waste : ℚ
  pct_from_limit : ℚ
deriving DecidableEq, Repr

/-- A finished distributor-quarter row, with
`pct_change_Wastes_from_last_quarter` (here `pct_change`) and `Status`. -/
structure DQRow where
  distributorId : ℤ
  usState : String
  yearOnly : ℤ
  quarter : String
  total_deliveries : ℚ
  total_returns : ℚ
  total_waste_allowance : ℚ
  total_waste : ℚ
  pct_from_limit : ℚ
  pct_change : FVal
  status : RiskStatus
deriving DecidableEq, Repr

/-- The 4-tuple groupby key (`Distributor ID`, `US States`, `year_only`,
`quarter`). -/
def edaKey (r : EdaRow) : ℤ × String × ℤ × String :=
  (r.distributorId, r.usState, r.yearOnly, r.quarter)

/-- Ascending lexicographic order on the 4-tuple groupby key, the order
pandas `groupby(sort=True)` lists the groups in. -/
def key4Le : (ℤ × String × ℤ × String) → (ℤ × String × ℤ × String) → Prop :=
  lexLe2 (fun a b : ℤ => a < b) (lexLe2 strLt (lexLe2 (fun a b : ℤ => a < b) strLe))

instance : DecidableRel key4Le := fun a b => by unfold key4Le; infer_instance

/-- The distinct groupby keys in ascending order. -/
def groupKeys (rows : List EdaRow) : List (ℤ × String × ℤ × String) :=
  List.insertionSort key4Le ((rows.map edaKey).dedup)

/-- Sum of one numeric measure over the rows of one group. -/
def sumBy (rows : List EdaRow) (k : ℤ × String × ℤ × String) (f : EdaRow → ℚ) : ℚ :=
  ((rows.filter (fun r => edaKey r = k)).map f).sum

/-- `pct_from_limit` for one aggregate row:
`np.where((limit == 0) | (spoil == 0), 0, ((spoil - limit) / limit) * 100).round(2)`.
Since the sums are finite rationals and division only happens with a
nonzero divisor, the result is always a finite rational. -/
def pctFromLimit (lim sp : ℚ) : ℚ :=
  round2 (if lim = 0 ∨ sp = 0 then 0 else (sp - lim) / lim * 100)

/-- The groupby/agg/round stage plus the `pct_from_limit` column. -/
def aggRows (rows : List EdaRow) : List AggRow :=
  (groupKeys rows).map fun k =>
    let lim := round2 (sumBy rows k (fun r => r.wasteAllowanceQty))
    let sp := round2 (sumBy rows k (fun r => r.wasteQtySum))
    { distributorId := k.1
      usState := k.2.1
      yearOnly := k.2.2.1
      quarter := k.2.2.2
      total_deliveries := round2 (sumBy rows k (fun r => r.deliveriesQty))
      total_returns := round2 (sumBy rows k (fun r => r.returnsQty))
      total_waste_allowance := lim
      total_waste := sp
      pct_from_limit := pctFromLimit lim sp }

/-- Ascending order by (`Distributor ID`, `year_only`, `quarter`), the
`sort_values` key of the transform. -/
def aggLe (a b : AggRow) : Prop :=
  lexLe2 (fun x y : ℤ => x < y) (lexLe2 (fun x y : ℤ => x < y) strLe)
    (a.distributorId, a.yearOnly, a.quarter) (b.distributorId, b.yearOnly, b.quarter)

instance : DecidableRel aggLe := fun a b => by unfold aggLe; infer_instance

/-- `pct_change() * 100` (rounded) of one step of a `total_waste` series:
pandas computes `curr / prev - 1`, giving NaN for `0 / 0` and a signed
infinity when only the previous value is zero. -/
def pctChangeVal (prev curr : ℚ) : FVal :=
  if prev = 0 then
    if curr = 0 then .nan else if 0 < curr then .inf else .ninf
  else .fin (round2 ((curr / prev - 1) * 100))

/-- One output row: `pct_change` from the carried (distributor, waste)
of the previous row — valid because the table is sorted by distributor
first, so each distributor's rows are contiguous — and `Status` from
`distributor_status` applied to this row's columns. -/
def mkDQRow (acc : Option (ℤ × ℚ)) (a : AggRow) : DQRow :=
  let pc : FVal :=
    match acc with
    | some (d, w) => if d = a.distributorId then pctChangeVal w a.total_waste else .nan
    | none => .nan
  { distributorId := a.distributorId
    usState := a.usState
    yearOnly := a.yearOnly
    quarter := a.quarter
    total_deliveries := a.total_deliveries
    total_returns := a.total_returns
    total_waste_allowance := a.total_waste_allowance
    total_waste := a.total_waste
    pct_from_limit := a.pct_from_limit
    pct_change := pc
    status := distributor_status (.fin a.pct_from_limit) pc }

/-- Walk the sorted aggregate rows computing the grouped `pct_change`. -/
def attachPct : Option (ℤ × ℚ) → List AggRow → List DQRow
  | _, [] => []
  | acc, a :: rest => mkDQRow acc a :: attachPct (some (a.distributorId, a.total_waste)) rest

/-- Embedding of `build_distributor_quarter_df`. -/
def build_distributor_quarter_df (rows : List EdaRow) : List DQRow :=
  attachPct none (List.insertionSort aggLe (aggRows rows))

/-- Default row used with `List.getD` when indexing the table. -/
def dq0 : DQRow :=
  ⟨0, "", 0, "", 0, 0, 0, 0, 0, .nan, .NotClassified⟩

/-- Ascending order by (`Distributor ID`, `year_only`, `quarter`) on
finished rows (the order the built table is in). -/
def dqLe (a b : DQRow) : Prop :=
  lexLe2 (fun x y : ℤ => x < y) (lexLe2 (fun x y : ℤ => x < y) strLe)
    (a.distributorId, a.yearOnly, a.quarter) (b.distributorId, b.yearOnly, b.quarter)

instance : DecidableRel dqLe := fun a b => by unfold dqLe; infer_instance

/-- Errors surfaced by the request layer: HTTP 404, a raised
`ValueError`, and the `KeyError` pandas raises when an empty frame is
grouped on a missing column. -/
inductive ApiErr where
  | notFound
  | valueError
  | emptyData
deriving DecidableEq, Repr

instance {ε α : Type} [DecidableEq ε] [DecidableEq α] : DecidableEq (Except ε α) := fun a b =>
  match a, b with
  | .error e, .error f =>
    if h : e = f then .isTrue (by rw [h]) else .isFalse (by simp [h])
  | .error _, .ok _ => .isFalse (fun h => Except.noConfusion h)
  | .ok _, .error _ => .isFalse (fun h => Except.noConfusion h)
  | .ok x, .ok y =>
    if h : x = y then .isTrue (by rw [h]) else .isFalse (by simp [h])

/-- How `/risk/distributor-trend` serializes one `pct_change` cell:
`None` when the cell is NaN, otherwise `round(v, 2)` (which keeps a
signed infinity). -/
def serializedPct (v : FVal) : Option FVal :=
  if v = .nan then none
  else some (match v with
    | .fin q => .fin (round2 q)
    | x => x)

/-- The quarter-over-quarter formula exactly as the spec states it,
read in exact arithmetic (total division): used to test the claim that
every later quarter's `pct_change` equals this rounded value. -/
def pctChangeClaim (prev curr : ℚ) : ℚ := round2 ((curr / prev - 1) * 100)

/-! ### Structural string helpers (python `split` / `replace` / `int` / `str`) -/

/-- Python whitespace for `str.split()` with no argument. -/
def isWS (c : Char) : Bool :=
  c = ' ' || c = '\t' || c = '\n' || c = '\r'

/-- Worker for `splitWS`: `cur` carries the current word reversed. -/
def splitWSGo : List Char → List Char → List String
  | [], cur => if cur = [] then [] else [⟨cur.reverse⟩]
  | c :: rest, cur =>
    if isWS c then
      if cur = [] then splitWSGo rest []
      else ⟨cur.reverse⟩ :: splitWSGo rest []
    else splitWSGo rest (c :: cur)

/-- Python `s.split()`: split on whitespace runs, dropping empty parts. -/
def splitWS (s : String) : List String := splitWSGo s.data []

/-- Numeric value of a decimal digit character. -/
def digitVal (c : Char) : Option ℕ :=
  if '0' ≤ c ∧ c ≤ '9' then some (c.toNat - '0'.toNat) else none

/-- Fold a digit string into a number, failing on a non-digit. -/
def digitsToNatGo : List Char → ℕ → Option ℕ
  | [], acc => some acc
  | c :: rest, acc =>
    match digitVal c with
    | some d => digitsToNatGo rest (acc * 10 + d)
    | none => none

/-- Python `int(s)` on a plain decimal string with an optional sign;
`none` models the raised `ValueError`. -/
def strToInt (s : String) : Option ℤ :=
  match s.data with
  | [] => none
  | '-' :: rest =>
    if rest = [] then none else (digitsToNatGo rest 0).map (fun n => -(n : ℤ))
  | '+' :: rest =>
    if rest = [] then none else (digitsToNatGo rest 0).map (fun n => (n : ℤ))
  | l => (digitsToNatGo l 0).map (fun n => (n : ℤ))

/-- Digits of a positive number, most significant first (fuel-driven). -/
def natToStrGo : ℕ → ℕ → List Char → List Char
  | 0, _, acc => acc
  | fuel + 1, n, acc =>
    if n = 0 then acc else natToStrGo fuel (n / 10) (Char.ofNat (48 + n % 10) :: acc)

/-- Decimal representation of a natural number. -/
def natToStr (n : ℕ) : String :=
  if n = 0 then "0" else ⟨natToStrGo n n []⟩

/-- Python `str(i)` for an integer. -/
def intToStr (i : ℤ) : String :=
  if i < 0 then "-" ++ natToStr i.natAbs else natToStr i.natAbs

/-- Non-overlapping left-to-right replace-all on character lists,
driven by fuel (= length of the scanned list). -/
def replFuel (pat repl : List Char) : ℕ → List Char → List Char
  | 0, l => l
  | _ + 1, [] => []
  | fuel + 1, c :: rest =>
    if pat.isPrefixOf (c :: rest) then
      repl ++ replFuel pat repl fuel ((c :: rest).drop pat.length)
    else c :: replFuel pat repl fuel rest

/-- Python `s.replace(pat, repl)`; only ever called with a nonempty
pattern here (the empty-pattern case never arises from `split()`). -/
def strReplace (s pat repl : String) : String :=
  if pat.data = [] then s else ⟨replFuel pat.data repl.data s.data.length s.data⟩

/-- Python `"{:.1f}"`-style formatting of a ratio-derived number, used
only inside alert description strings. -/
def fmt1 (q : ℚ) : String :=
  let n : ℤ := round (q * 10)
  let sign := if n < 0 then "-" else ""
  let m := n.natAbs
  sign ++ natToStr (m / 10) ++ "." ++ natToStr (m % 10)

/-! ### `/risk/quarter-comparison` and `/risk/distributor-trend`
(`app/routers/risk.py`) -/

/-- Embedding of the router's `parse_quarter`: `y, q = label.split()`,
`q = q.replace(y, "")`, `int(y)`; `none` models the raised error. -/
def parse_quarter (label : String) : Option (ℤ × String) :=
  match splitWS label with
  | [y, q] => (strToInt y).map (fun yi => (yi, strReplace q y ""))
  | _ => none

/-- One entry of the quarter-comparison payload. -/
structure QCEntry where
  distributor_id : ℤ
  total_waste_q1 : ℚ
  total_waste_q2 : ℚ
  delta : ℚ
  trend : String
  status_change : String
deriving DecidableEq, Repr

/-- The two response shapes of `/risk/quarter-comparison`: the bare
`{"comparison": []}` dict, or the full dict echoing state and labels. -/
inductive QCResult where
  | emptyRes
  | full (state quarter_a quarter_b : String) (comparison : List QCEntry)
deriving DecidableEq, Repr

/-- The comparison list of either response shape. -/
def QCResult.comparison : QCResult → List QCEntry
  | .emptyRes => []
  | .full _ _ _ c => c

/-- Pandas outer merge of the two quarter subsets on `Distributor ID`:
matched pairs for shared keys, one-sided rows otherwise. -/
def outerJoin (l r : List DQRow) : List (Option DQRow × Option DQRow) :=
  let keys := List.insertionSort (fun a b : ℤ => a ≤ b)
    ((l.map (fun x => x.distributorId)) ++ (r.map (fun x => x.distributorId))).dedup
  keys.flatMap fun k =>
    match l.filter (fun x => x.distributorId = k), r.filter (fun x => x.distributorId = k) with
    | [], rs => rs.map (fun x => (none, some x))
    | ls, [] => ls.map (fun x => (some x, none))
    | ls, rs => ls.flatMap (fun a => rs.map (fun b => (some a, some b)))

/-- One merged row's payload entry: `delta` from zero-filled wastes,
trend arrow from the delta, `Unknown`-filled status transition, and
zero-filled rounded wastes. -/
def mkQCEntry (p : Option DQRow × Option DQRow) : QCEntry :=
  let w1 := p.1.map (fun x => x.total_waste)
  let w2 := p.2.map (fun x => x.total_waste)
  let delta := w2.getD 0 - w1.getD 0
  { distributor_id :=
      match p.1 with
      | some a => a.distributorId
      | none =>
        match p.2 with
        | some b => b.distributorId
        | none => 0
    total_waste_q1 := match w1 with | some w => round2 w | none => 0
    total_waste_q2 := match w2 with | some w => round2 w | none => 0
    delta := round2 delta
    trend := waste_trend_arrow (.fin delta)
    status_change :=
      (match p.1 with | some a => statusStr a.status | none => "Unknown") ++ " → " ++
      (match p.2 with | some b => statusStr b.status | none => "Unknown") }

/-- The `distributors` request list: `[distributor_1]`, plus
`distributor_2` when it is present and truthy (nonempty). -/
def distributorsParam (d1 : String) (d2 : Option String) : List String :=
  d1 :: (match d2 with
    | some s => if s = "" then [] else [s]
    | none => [])

/-- One quarter's subset: filter to (year, quarter), then restrict to
the requested distributor ids compared as strings. -/
def selectQuarter (dqs : List DQRow) (y : ℤ) (q : String) (dists : List String) : List DQRow :=
  (dqs.filter (fun r => r.yearOnly = y ∧ r.quarter = q)).filter
    (fun r => intToStr r.distributorId ∈ dists)

/-- Embedding of `/risk/quarter-comparison`. -/
def quarter_comparison (dq : List DQRow) (state quarter_a quarter_b : String)
    (distributor_1 : String) (distributor_2 : Option String) : Except ApiErr QCResult :=
  let dqs := dq.filter (fun r => r.usState = state)
  if dqs = [] then .error .notFound
  else
    match parse_quarter quarter_a, parse_quarter quarter_b with
    | some (y1, q1), some (y2, q2) =>
      let dists := distributorsParam distributor_1 distributor_2
      let df_q1 := selectQuarter dqs y1 q1 dists
      let df_q2 := selectQuarter dqs y2 q2 dists
      if quarter_a = quarter_b then
        match df_q1 with
        | [] => .ok .emptyRes
        | base :: _ =>
          .ok (.full state quarter_a quarter_b
            [{ distributor_id := base.distributorId
               total_waste_q1 := round2 base.total_waste
               total_waste_q2 := round2 base.total_waste
               delta := 0
               trend := "➖"
               status_change := statusStr base.status ++ " → " ++ statusStr base.status }])
      else
        let merged := outerJoin df_q1 df_q2
        if merged = [] then .ok .emptyRes
        else .ok (.full state quarter_a quarter_b (merged.map mkQCEntry))
    | _, _ => .error .valueError

/-- One entry of the distributor-trend payload. -/
structure TrendEntry where
  quarterLabel : String
  waste : ℚ
  pct_change : Option FVal
  status : RiskStatus
deriving DecidableEq, Repr

/-- Ascending order by (`year_only`, `quarter`), the trend sort key. -/
def dqYQLe (a b : DQRow) : Prop :=
  lexLe2 (fun x y : ℤ => x < y) strLe (a.yearOnly, a.quarter) (b.yearOnly, b.quarter)

instance : DecidableRel dqYQLe := fun a b => by unfold dqYQLe; infer_instance

/-- Embedding of `/risk/distributor-trend`. -/
def distributor_trend (dq : List DQRow) (distributor_id : String) :
    Except ApiErr (List TrendEntry) :=
  let df := dq.filter (fun r => intToStr r.distributorId = distributor_id)
  if df = [] then .error .notFound
  else .ok ((List.insertionSort dqYQLe df).map (fun r =>
    ⟨intToStr r.yearOnly ++ " " ++ r.quarter, round2 r.total_waste,
      serializedPct r.pct_change, r.status⟩))

/-! ### Alert engine (`app/routers/alerts.py`) -/

/-- Alert severities. -/
inductive Sev where
  | HIGH
  | MEDIUM
  | LOW
deriving DecidableEq, Repr

/-- The severity strings used in the payload. -/
def sevStr : Sev → String
  | .HIGH => "HIGH"
  | .MEDIUM => "MEDIUM"
  | .LOW => "LOW"

/-- The dedup priority map `{"HIGH": 3, "MEDIUM": 2, "LOW": 1}`. -/
def prio : Sev → ℕ
  | .HIGH => 3
  | .MEDIUM => 2
  | .LOW => 1

/-- One raw dataset row as the alert engine sees it: id and state may
be missing (dropped by `dropna`), measures may be unparseable (NaN
after `to_numeric(errors="coerce")`). -/
structure RawRow where
  distributorId : Option ℤ
  usState : Option String
  wasteQtySum : Option ℚ
  wasteAllowanceQty : Option ℚ
  returnsQty : Option ℚ
  deliveriesQty : Option ℚ
deriving DecidableEq, Repr

/-- A row surviving `dropna(subset=["Distributor ID", "US States"])`. -/
structure CleanRow where
  distributorId : ℤ
  usState : String
  wasteQtySum : Option ℚ
  wasteAllowanceQty : Option ℚ
  returnsQty : Option ℚ
  deliveriesQty : Option ℚ
deriving DecidableEq, Repr

/-- The `dropna` step. -/
def dropNaIdState (df : List RawRow) : List CleanRow :=
  df.filterMap (fun r =>
    match r.distributorId, r.usState with
    | some d, some s => some ⟨d, s, r.wasteQtySum, r.wasteAllowanceQty, r.returnsQty, r.deliveriesQty⟩
    | _, _ => none)

/-- One alert record. -/
structure Alert where
  severity : Sev
  title : String
  description : String
  distributor_id : ℤ
  state : String
  category : String
  time_ref : String
deriving DecidableEq, Repr

/-- Ascending order on the (`Distributor ID`, `US States`) group key. -/
def pairLe : (ℤ × String) → (ℤ × String) → Prop :=
  lexLe2 (fun a b : ℤ => a < b) strLe

instance : DecidableRel pairLe := fun a b => by unfold pairLe; infer_instance

/-- Distinct (distributor, state) group keys in groupby order. -/
def alertGroupKeys (rows : List CleanRow) : List (ℤ × String) :=
  List.insertionSort pairLe ((rows.map (fun r => (r.distributorId, r.usState))).dedup)

/-- NaN-skipping group sum of one measure (all-NaN groups sum to 0). -/
def groupSum (rows : List CleanRow) (k : ℤ × String) (f : CleanRow → Option ℚ) : ℚ :=
  ((rows.filter (fun r => (r.distributorId, r.usState) = k)).map (fun r => (f r).getD 0)).sum

/-- The `over_allow` frame: per-group waste and allowance sums,
restricted to groups with `allowance > 0`. -/
def overAllowGroups (rows : List CleanRow) : List ((ℤ × String) × ℚ × ℚ) :=
  ((alertGroupKeys rows).map (fun k =>
    (k, groupSum rows k (fun r => r.wasteQtySum), groupSum rows k (fun r => r.wasteAllowanceQty)))).filter
    (fun g => 0 < g.2.2)

/-- HIGH alerts: groups with `usage_pct = waste / allowance > 1`. -/
def highAlerts (rows : List CleanRow) : List Alert :=
  (overAllowGroups rows).filterMap (fun g =>
    let usagePct := g.2.1 / g.2.2
    if 1 < usagePct then
      some { severity := .HIGH
             title := "Waste Threshold Exceeded"
             description := "Waste exceeded allowance by " ++ fmt1 ((usagePct - 1) * 100) ++ "%"
             distributor_id := g.1.1
             state := g.1.2
             category := "Stale Inventory"
             time_ref := "Recent" }
    else none)

/-- The `returns` frame: per-group returns and deliveries sums,
restricted to groups with `deliveries > 0`. -/
def returnsGroups (rows : List CleanRow) : List ((ℤ × String) × ℚ × ℚ) :=
  ((alertGroupKeys rows).map (fun k =>
    (k, groupSum rows k (fun r => r.returnsQty), groupSum rows k (fun r => r.deliveriesQty)))).filter
    (fun g => 0 < g.2.2)

/-- MEDIUM alerts: groups with `return_pct = returns / deliveries > 0.08`. -/
def mediumAlerts (rows : List CleanRow) : List Alert :=
  (returnsGroups rows).filterMap (fun g =>
    let returnPct := g.2.1 / g.2.2
    if 8 / 100 < returnPct then
      some { severity := .MEDIUM
             title := "High Return Rate"
             description := "Returns at " ++ fmt1 (returnPct * 100) ++ "% of deliveries"
             distributor_id := g.1.1
             state := g.1.2
             category := "Returns"
             time_ref := "Recent" }
    else none)

/-- LOW alerts: `over_allow` groups with `usage_pct < 0.6`. -/
def lowAlerts (rows : List CleanRow) : List Alert :=
  (overAllowGroups rows).filterMap (fun g =>
    let usagePct := g.2.1 / g.2.2
    if usagePct < 6 / 10 then
      some { severity := .LOW
             title := "Good Inventory Control"
             description := "Waste well within allowed limits"
             distributor_id := g.1.1
             state := g.1.2
             category := "Positive Signal"
             time_ref := "Recent" }
    else none)

/-- The full pre-deduplication alert list, in build order
(HIGH rule, then MEDIUM rule, then LOW rule). -/
def buildAlerts (df : List RawRow) : List Alert :=
  let rows := dropNaIdState df
  highAlerts rows ++ mediumAlerts rows ++ lowAlerts rows

/-- The `summary` payload: distinct distributors per severity bucket. -/
structure AlertSummary where
  high : ℕ
  medium : ℕ
  low : ℕ
deriving DecidableEq, Repr

/-- `nunique` of `distributor_id` within one severity bucket. -/
def sevDistinctCount (alerts : List Alert) (s : Sev) : ℕ :=
  (((alerts.filter (fun a => a.severity = s)).map (fun a => a.distributor_id)).dedup).length

/-- The summary, computed from the full non-deduplicated alert set. -/
def mkSummary (alerts : List Alert) : AlertSummary :=
  ⟨sevDistinctCount alerts .HIGH, sevDistinctCount alerts .MEDIUM, sevDistinctCount alerts .LOW⟩

/-- Priority-descending comparison used by
`sort_values("priority", ascending=False)`. -/
def alertPrioGe (a b : Alert) : Prop := prio b.severity ≤ prio a.severity

instance : DecidableRel alertPrioGe := fun a b => by unfold alertPrioGe; infer_instance

/-- The sort step of the deduplication. -/
def sortAlerts (l : List Alert) : List Alert := List.insertionSort alertPrioGe l

/-- `drop_duplicates(subset=["distributor_id"])`: keep the first
occurrence of each distributor id. -/
def dedupAux : List ℤ → List Alert → List Alert
  | _, [] => []
  | seen, a :: rest =>
    if a.distributor_id ∈ seen then dedupAux seen rest
    else a :: dedupAux (a.distributor_id :: seen) rest

/-- The deduplication step: sort by priority descending, then keep one
alert per distributor id. -/
def dedupAlerts (l : List Alert) : List Alert := dedupAux [] (sortAlerts l)

/-- The `/alerts/` response. -/
structure AlertsResult where
  summary : AlertSummary
  alerts : List Alert
deriving DecidableEq, Repr

/-- Python `severity.upper()`. -/
def toUpperStr (s : String) : String := ⟨s.data.map Char.toUpper⟩

/-- Embedding of `/alerts/`: build alerts, summarize pre-dedup,
deduplicate, then apply the optional equality filters to the list
only.  An entirely empty alert set makes the pandas `groupby` on the
column-less empty frame raise, modelled as `.error .emptyData`; a
non-numeric distributor filter raises `ValueError`. -/
def get_alerts (df : List RawRow) (severity distributor state : String) :
    Except ApiErr AlertsResult :=
  let sev := toUpperStr severity
  let alerts := buildAlerts df
  if alerts = [] then .error .emptyData
  else
    let summary := mkSummary alerts
    let deduped := dedupAlerts alerts
    let l1 := if sev ≠ "ALL" then deduped.filter (fun a => sevStr a.severity = sev) else deduped
    match (if distributor ≠ "ALL" then
        (strToInt distributor).map (fun n => l1.filter (fun a => a.distributor_id = n))
      else some l1) with
    | none => .error .valueError
    | some l2 =>
      let l3 := if state ≠ "ALL" then l2.filter (fun a => a.state = state) else l2
      .ok ⟨summary, l3⟩

/-! ### Correlation engine (`app/routers/correlation.py`) -/

/-- Sample mean of a column. -/
def qmean (xs : List ℚ) : ℚ := xs.sum / xs.length

/-- Centered sum of squares of a column. -/
def sqsum (xs : List ℚ) : ℚ := (xs.map (fun x => (x - qmean xs) ^ 2)).sum

/-- Centered cross-product sum of two columns. -/
def cpsum (xs ys : List ℚ) : ℚ :=
  ((xs.zip ys).map (fun p => (p.1 - qmean xs) * (p.2 - qmean ys))).sum

/-- Two-decimal rounding over the reals. -/
noncomputable def round2R (x : ℝ) : ℝ := ((round (x * 100) : ℤ) : ℝ) / 100

/-- One Pearson entry of `numeric_df.corr().round(2)`: NaN (`none`)
when either column has zero variance, as pandas produces. -/
noncomputable def corrEntry (xs ys : List ℚ) : Option ℝ :=
  if sqsum xs = 0 ∨ sqsum ys = 0 then none
  else some (round2R ((cpsum xs ys : ℝ) / Real.sqrt ((sqsum xs : ℝ) * (sqsum ys : ℝ))))

/-- The full rounded correlation matrix, aligned with the column order. -/
noncomputable def corrMatrix (cols : List (List ℚ)) : List (List (Option ℝ)) :=
  cols.map (fun x => cols.map (fun y => corrEntry x y))

/-- Matrix indexing with defaults. -/
noncomputable def mgetCorr (m : List (List (Option ℝ))) (i j : ℕ) : Option ℝ :=
  (m.getD i []).getD j none

/-- One flattened relationship record. -/
structure CorrRel where
  f1 : String
  f2 : String
  value : Option ℚ
deriving DecidableEq, Repr

/-- `abs` of a possibly-NaN correlation value. -/
def relAbs (r : CorrRel) : Option ℚ := r.value.map (fun v => |v|)

/-- Pandas filtering comparison `x >= c` on a possibly-NaN column:
NaN compares false. -/
def oge (x : Option ℚ) (c : ℚ) : Prop :=
  match x with
  | some v => c ≤ v
  | none => False

/-- Pandas filtering comparison `x < c`: NaN compares false. -/
def olt (x : Option ℚ) (c : ℚ) : Prop :=
  match x with
  | some v => v < c
  | none => False

/-- Pandas filtering comparison `x <= c`: NaN compares false. -/
def ole (x : Option ℚ) (c : ℚ) : Prop :=
  match x with
  | some v => v ≤ c
  | none => False

instance : (x : Option ℚ) → (c : ℚ) → Decidable (oge x c)
  | some v, c => inferInstanceAs (Decidable (c ≤ v))
  | none, _ => isFalse id

instance : (x : Option ℚ) → (c : ℚ) → Decidable (olt x c)
  | some v, c => inferInstanceAs (Decidable (v < c))
  | none, _ => isFalse id

instance : (x : Option ℚ) → (c : ℚ) → Decidable (ole x c)
  | some v, c => inferInstanceAs (Decidable (v ≤ c))
  | none, _ => isFalse id

/-- `corr.loc[i, j]` by feature names, on an already-computed rounded
matrix (the bucketing step of the router is generic in the matrix). -/
def lookupCorr (features : List String) (m : List (List (Option ℚ))) (i j : String) : Option ℚ :=
  (m.getD (features.indexOf i) []).getD (features.indexOf j) none

/-- The flattened off-diagonal relationship list: the double loop over
feature names, keeping pairs with distinct names, in row-major order. -/
def relationships (features : List String) (m : List (List (Option ℚ))) : List CorrRel :=
  features.flatMap (fun i =>
    features.filterMap (fun j =>
      if i ≠ j then some ⟨i, j, lookupCorr features m i j⟩ else none))

/-- The relationships eligible for the `strong` bucket (`|r| >= 0.75`). -/
def qualifyingStrong (features : List String) (m : List (List (Option ℚ))) : List CorrRel :=
  (relationships features m).filter (fun r => oge (relAbs r) (3 / 4))

/-- `strong` bucket: `rel_df[rel_df["abs"] >= 0.75].head(5)`. -/
def strongBucket (features : List String) (m : List (List (Option ℚ))) : List CorrRel :=
  (qualifyingStrong features m).take 5

/-- `moderate` bucket: `0.4 <= |r| < 0.75`, first five. -/
def moderateBucket (features : List String) (m : List (List (Option ℚ))) : List CorrRel :=
  ((relationships features m).filter
    (fun r => oge (relAbs r) (2 / 5) ∧ olt (relAbs r) (3 / 4))).take 5

/-- `inverse` bucket: signed `r <= -0.4`, first five. -/
def inverseBucket (features : List String) (m : List (List (Option ℚ))) : List CorrRel :=
  ((relationships features m).filter (fun r => ole r.value (-(2 / 5)))).take 5

/-- `|x| <= |y|` on possibly-NaN correlation magnitudes. -/
def absLeRel (x y : CorrRel) : Prop :=
  match relAbs x, relAbs y with
  | some a, some b => a ≤ b
  | none, _ => True
  | _, none => False

instance : (x y : CorrRel) → Decidable (absLeRel x y) := fun x y => by
  unfold absLeRel; rcases relAbs x with _ | a <;> rcases relAbs y with _ | b <;> infer_instance

/-- A selection is "the top 5 of the pool by descending magnitude": it
comes from the pool, has `min 5 (pool size)` entries, and no excluded
pool element strictly exceeds an included one. -/
def IsTop5ByAbs (sel pool : List CorrRel) : Prop :=
  (∀ x ∈ sel, x ∈ pool) ∧ sel.length = min 5 pool.length ∧
  ∀ x ∈ pool, x ∉ sel → ∀ y ∈ sel, absLeRel x y

instance (sel pool : List CorrRel) : Decidable (IsTop5ByAbs sel pool) := by
  unfold IsTop5ByAbs; infer_instance

/-! ### Concrete inputs used by witnesses and counterexamples -/

/-- A single-row dataset: distributor 101 in TX, 2022 Q1, waste 1000
against allowance 800 (the spec's worked example). -/
def exRowsA : List EdaRow :=
  [⟨101, "TX", 2022, "Q1", 500, 20, 800, 1000⟩]

/-- The row the pipeline builds from `exRowsA`. -/
def exRowA : DQRow :=
  ⟨101, "TX", 2022, "Q1", 500, 20, 800, 1000, 25, .nan, .VeryGood⟩

/-- Two quarters of one distributor with nonzero waste both times. -/
def exRowsB : List EdaRow :=
  [⟨101, "TX", 2022, "Q1", 500, 20, 800, 1000⟩,
   ⟨101, "TX", 2022, "Q2", 600, 30, 800, 400⟩]

/-- Two quarters of one distributor where the first quarter's waste is
zero: pandas `pct_change` then divides by zero. -/
def cex3rows : List EdaRow :=
  [⟨1, "TX", 2022, "Q1", 10, 1, 10, 0⟩,
   ⟨1, "TX", 2022, "Q2", 10, 1, 10, 5⟩]

/-- A small distributor-quarter table for the comparison endpoints:
distributors 1 and 2 both present in TX 2022 Q1, and distributor 1
also in 2023 Q2. -/
def dqTableEx : List DQRow :=
  [⟨1, "TX", 2022, "Q1", 100, 10, 50, 40, -20, .nan, .VeryGood⟩,
   ⟨2, "TX", 2022, "Q1", 200, 20, 50, 80, 60, .nan, .VeryGood⟩,
   ⟨1, "TX", 2023, "Q2", 100, 10, 50, 60, 20, .fin 50, .VeryGood⟩]

/-- One raw row for the alert engine: distributor 7 in TX with waste
100 over allowance 40 (HIGH) and returns 90 over deliveries 1000
(MEDIUM). -/
def alertsDfEx : List RawRow :=
  [⟨some 7, some "TX", some 100, some 40, some 90, some 1000⟩]

/-- Three feature names for the correlation counterexample. -/
def corrFeatures3 : List String := ["a", "b", "c"]

/-- A rounded correlation matrix whose six off-diagonal values all
qualify for the `strong` bucket but are not in descending order. -/
def corrM3 : List (List (Option ℚ)) :=
  [[some 1, some (4 / 5), some (9 / 10)],
   [some (4 / 5), some 1, some (19 / 20)],
   [some (9 / 10), some (19 / 20), some 1]]

/-- A dataset whose first numeric column is constant. -/
def colsConst : List (List ℚ) := [[1, 1], [1, 2]]

/-- A dataset of two non-constant numeric columns. -/
def colsW : List (List ℚ) := [[1, 2], [2, 1]]

/-! ## Helper lemmas -/

theorem attachPct_length (acc : Option (ℤ × ℚ)) (l : List AggRow) :
    (attachPct acc l).length = l.length := by
  induction l generalizing acc with
  | nil => rfl
  | cons a rest ih => simp [attachPct, ih]

theorem mem_attachPct {r : DQRow} :
    ∀ {acc : Option (ℤ × ℚ)} {l : List AggRow}, r ∈ attachPct acc l →
      ∃ acc2 a, a ∈ l ∧ r = mkDQRow acc2 a := by
  intro acc l
  induction l generalizing acc with
  | nil => simp [attachPct]
  | cons a rest ih =>
    intro h
    rcases List.mem_cons.1 h with h | h
    · exact ⟨acc, a, List.mem_cons_self a rest, h⟩
    · obtain ⟨acc2, b, hb, rfl⟩ := ih h
      exact ⟨acc2, b, List.mem_cons_of_mem a hb, rfl⟩

theorem mem_aggRows {a : AggRow} {rows : List EdaRow} (ha : a ∈ aggRows rows) :
    a.pct_from_limit = pctFromLimit a.total_waste_allowance a.total_waste := by
  obtain ⟨k, _, rfl⟩ := List.mem_map.1 ha
  rfl

theorem build_row_src {rows : List EdaRow} {r : DQRow}
    (hr : r ∈ build_distributor_quarter_df rows) :
    r.pct_from_limit = pctFromLimit r.total_waste_allowance r.total_waste ∧
    r.status = distributor_status (.fin r.pct_from_limit) r.pct_change := by
  obtain ⟨acc2, a, ha, rfl⟩ := mem_attachPct hr
  have ha2 : a ∈ aggRows rows := by simpa using ha
  exact ⟨mem_aggRows ha2, rfl⟩

theorem pctFromLimit_zero {lim sp : ℚ} (h : lim = 0 ∨ sp = 0) : pctFromLimit lim sp = 0 := by
  simp [pctFromLimit, h, round2]

theorem pctFromLimit_formula {lim sp : ℚ} (h1 : lim ≠ 0) (h2 : sp ≠ 0) :
    pctFromLimit lim sp = round2 ((sp - lim) / lim * 100) := by
  simp [pctFromLimit, h1, h2]

theorem status_fin_cases (p : ℚ) (pc : FVal) :
    distributor_status (.fin p) pc ≠ .NotClassified ∧
    ∀ pc2, distributor_status (.fin p) pc = distributor_status (.fin p) pc2 := by
  unfold distributor_status
  simp only [ne_eq, reduceCtorEq, not_false_eq_true, if_true, ite_not]
  constructor
  · split_ifs <;> simp
  · intro pc2; trivial

/-! ## Claims C1, C10 -/

/-- C1: for every row of the distributor-quarter table, `pct_from_limit`
is 0 when the (rounded) waste allowance sum or waste sum is zero, and
otherwise equals `((waste - allowance) / allowance) * 100` rounded to 2
decimals; the zero cases short-circuit so the result is always a
defined number. -/
theorem C1_pct_from_limit (rows : List EdaRow) (r : DQRow)
    (hr : r ∈ build_distributor_quarter_df rows) :
    (r.total_waste_allowance = 0 ∨ r.total_waste = 0 → r.pct_from_limit = 0) ∧
    (r.total_waste_allowance ≠ 0 → r.total_waste ≠ 0 →
      r.pct_from_limit =
        round2 ((r.total_waste - r.total_waste_allowance) / r.total_waste_allowance * 100)) := by
  have h := (build_row_src hr).1
  constructor
  · intro hz
    rw [h]
    exact pctFromLimit_zero hz
  · intro h1 h2
    rw [h]
    exact pctFromLimit_formula h1 h2

/-- Witness for C1 at the spec's worked example (waste 1000 over
allowance 800). -/
theorem C1_pct_from_limit_witness :
    exRowA ∈ build_distributor_quarter_df exRowsA ∧
    exRowA.total_waste_allowance ≠ 0 ∧ exRowA.total_waste ≠ 0 ∧
    exRowA.pct_from_limit =
      round2 ((exRowA.total_waste - exRowA.total_waste_allowance) /
        exRowA.total_waste_allowance * 100) := by
  have hmem : exRowA ∈ build_distributor_quarter_df exRowsA := by
    with_unfolding_all decide
  have h1 : exRowA.total_waste_allowance ≠ 0 := by with_unfolding_all decide
  have h2 : exRowA.total_waste ≠ 0 := by with_unfolding_all decide
  exact ⟨hmem, h1, h2, (C1_pct_from_limit exRowsA exRowA hmem).2 h1 h2⟩

/-- C10: every row of the built distributor-quarter table has a defined
(finite) `pct_from_limit`, so its status is decided by the tier-1
limit branch: the status is insensitive to the trend value and is never
`Not Classified`. -/
theorem C10_tier1_decides (rows : List EdaRow) (r : DQRow)
    (hr : r ∈ build_distributor_quarter_df rows) :
    r.status = distributor_status (.fin r.pct_from_limit) r.pct_change ∧
    (∀ pc : FVal, distributor_status (.fin r.pct_from_limit) pc = r.status) ∧
    r.status ≠ .NotClassified := by
  have h := (build_row_src hr).2
  refine ⟨h, ?_, ?_⟩
  · intro pc
    rw [h]
    exact ((status_fin_cases r.pct_from_limit r.pct_change).2 pc).symm
  · rw [h]
    exact (status_fin_cases r.pct_from_limit r.pct_change).1

/-- Witness for C10 at the worked example row. -/
theorem C10_tier1_decides_witness :
    exRowA.status = distributor_status (.fin exRowA.pct_from_limit) exRowA.pct_change ∧
    exRowA.status ≠ .NotClassified := by
  have hmem : exRowA ∈ build_distributor_quarter_df exRowsA := by
    with_unfolding_all decide
  exact ⟨(C10_tier1_decides exRowsA exRowA hmem).1, (C10_tier1_decides exRowsA exRowA hmem).2.2⟩

/-! ## Claim C2 -/

/-- C2: the risk classifier is total and two-tier with tier-1
precedence: each of the five statuses is returned exactly under the
stated conditions — the limit tier decides whenever `pct_from_limit` is
not NaN (`>=120` HighRisk, `>=100` Risk, `<80` VeryGood, else Good,
regardless of `pct_change`), the trend tier only when it is NaN, and
`Not Classified` exactly when both are NaN. -/
theorem C2_classifier_characterization (pfl pch : FVal) :
    (distributor_status pfl pch = .HighRisk ↔
      (pfl.ge 120 ∨ (pfl = .nan ∧ pch.gt 10))) ∧
    (distributor_status pfl pch = .Risk ↔
      ((pfl.ge 100 ∧ ¬ pfl.ge 120) ∨ (pfl = .nan ∧ pch.gt 0 ∧ ¬ pch.gt 10))) ∧
    (distributor_status pfl pch = .VeryGood ↔
      ((pfl ≠ .nan ∧ pfl.lt 80) ∨ (pfl = .nan ∧ pch.lt (-10) ∧ ¬ pch.gt 0))) ∧
    (distributor_status pfl pch = .Good ↔
      ((pfl ≠ .nan ∧ ¬ pfl.ge 100 ∧ ¬ pfl.lt 80) ∨
        (pfl = .nan ∧ pch ≠ .nan ∧ ¬ pch.gt 0 ∧ ¬ pch.lt (-10)))) ∧
    (distributor_status pfl pch = .NotClassified ↔ (pfl = .nan ∧ pch = .nan)) := by
  cases pfl <;> cases pch <;>
    simp only [distributor_status, FVal.ge, FVal.gt, FVal.lt, ne_eq, reduceCtorEq,
      not_false_eq_true, if_true, if_false, ite_not, not_true_eq_false, false_and, and_false,
      true_and, and_true, or_false, false_or, not_false_iff] <;>
    split_ifs <;>
    simp_all <;>
    first
      | linarith
      | (constructor <;> first
          | linarith
          | (intro h; linarith))

/-! ## Order lemmas for the table sort -/

theorem lexLe2_total {α β : Type} {ltA : α → α → Prop} {leB : β → β → Prop}
    (hA : ∀ a b, ltA a b ∨ a = b ∨ ltA b a) (hB : ∀ x y, leB x y ∨ leB y x)
    (p q : α × β) : lexLe2 ltA leB p q ∨ lexLe2 ltA leB q p := by
  rcases hA p.1 q.1 with h | h | h
  · exact Or.inl (Or.inl h)
  · rcases hB p.2 q.2 with h2 | h2
    · exact Or.inl (Or.inr ⟨h, h2⟩)
    · exact Or.inr (Or.inr ⟨h.symm, h2⟩)
  · exact Or.inr (Or.inl h)

theorem lexLe2_trans {α β : Type} {ltA : α → α → Prop} {leB : β → β → Prop}
    (hA : ∀ a b c, ltA a b → ltA b c → ltA a c)
    (hB : ∀ x y z, leB x y → leB y z → leB x z)
    (p q r : α × β) :
    lexLe2 ltA leB p q → lexLe2 ltA leB q r → lexLe2 ltA leB p r := by
  rintro (h | ⟨e1, h1⟩) (h2 | ⟨e2, h2⟩)
  · exact Or.inl (hA _ _ _ h h2)
  · exact Or.inl (e2 ▸ h)
  · exact Or.inl (e1 ▸ h2)
  · exact Or.inr ⟨e1.trans e2, hB _ _ _ h1 h2⟩

theorem strLt_trichot (a b : String) : strLt a b ∨ a = b ∨ strLt b a := by
  rcases trichotomous (r := List.Lex (fun c d : Char => c < d)) a.data b.data with h | h | h
  · exact Or.inl h
  · refine Or.inr (Or.inl ?_)
    cases a; cases b; exact congrArg String.mk h
  · exact Or.inr (Or.inr h)

theorem strLt_trans (a b c : String) : strLt a b → strLt b c → strLt a c := by
  intro h1 h2
  have ht : IsTrans (List Char) (List.Lex (fun c d : Char => c < d)) := inferInstance
  exact ht.trans a.data b.data c.data h1 h2

theorem strLe_total (a b : String) : strLe a b ∨ strLe b a := by
  rcases strLt_trichot a b with h | h | h
  · exact Or.inl (Or.inl h)
  · exact Or.inl (Or.inr h)
  · exact Or.inr (Or.inl h)

theorem strLe_trans (a b c : String) : strLe a b → strLe b c → strLe a c := by
  rintro (h1 | rfl) (h2 | rfl)
  · exact Or.inl (strLt_trans a b c h1 h2)
  · exact Or.inl h1
  · exact Or.inl h2
  · exact Or.inr rfl

theorem aggLe_total (a b : AggRow) : aggLe a b ∨ aggLe b a :=
  lexLe2_total (fun x y => lt_trichotomy x y)
    (fun x y => lexLe2_total (fun u v => lt_trichotomy u v) strLe_total x y) _ _

theorem aggLe_trans (a b c : AggRow) : aggLe a b → aggLe b c → aggLe a c :=
  lexLe2_trans (fun (x y z : ℤ) h1 h2 => lt_trans (a := x) (b := y) (c := z) h1 h2)
    (fun x y z => lexLe2_trans
      (fun (u v w : ℤ) h1 h2 => lt_trans (a := u) (b := v) (c := w) h1 h2)
      strLe_trans x y z) _ _ _

instance : IsTotal AggRow aggLe := ⟨aggLe_total⟩

instance : IsTrans AggRow aggLe := ⟨aggLe_trans⟩

/-! ## Table shape lemmas for the trend column -/

theorem attachPct_map_key (acc : Option (ℤ × ℚ)) (l : List AggRow) :
    (attachPct acc l).map (fun r => (r.distributorId, r.yearOnly, r.quarter)) =
      l.map (fun a => (a.distributorId, a.yearOnly, a.quarter)) := by
  induction l generalizing acc with
  | nil => rfl
  | cons a rest ih => simp [attachPct, mkDQRow, ih]

theorem attachPct_first (l : List AggRow) (h : 0 < (attachPct none l).length) :
    ((attachPct none l).getD 0 dq0).pct_change = .nan := by
  cases l with
  | nil => simp [attachPct] at h
  | cons a rest => rfl

theorem attachPct_consecutive (l : List AggRow) (acc : Option (ℤ × ℚ)) (i : ℕ)
    (h : i + 1 < (attachPct acc l).length) :
    (((attachPct acc l).getD (i + 1) dq0).distributorId =
        ((attachPct acc l).getD i dq0).distributorId →
      ((attachPct acc l).getD (i + 1) dq0).pct_change =
        pctChangeVal ((attachPct acc l).getD i dq0).total_waste
          ((attachPct acc l).getD (i + 1) dq0).total_waste) ∧
    (((attachPct acc l).getD (i + 1) dq0).distributorId ≠
        ((attachPct acc l).getD i dq0).distributorId →
      ((attachPct acc l).getD (i + 1) dq0).pct_change = .nan) := by
  induction l generalizing acc i with
  | nil => simp [attachPct] at h
  | cons a rest ih =>
    cases rest with
    | nil => simp [attachPct, attachPct_length] at h
    | cons b rest2 =>
      cases i with
      | zero =>
        constructor
        · intro hd
          simp only [attachPct, List.getD_cons_succ, List.getD_cons_zero] at hd ⊢
          simp only [mkDQRow] at hd ⊢
          rw [if_pos hd.symm]
        · intro hd
          simp only [attachPct, List.getD_cons_succ, List.getD_cons_zero] at hd ⊢
          simp only [mkDQRow] at hd ⊢
          rw [if_neg (fun he => hd he.symm)]
      | succ j =>
        have hlen : j + 1 < (attachPct (some (a.distributorId, a.total_waste)) (b :: rest2)).length := by
          simpa [attachPct] using h
        have hres := ih (some (a.distributorId, a.total_waste)) j hlen
        simpa [attachPct] using hres

/-! ## Claim C3 -/

/-- C3 (amended): the built table is sorted ascending by
(distributor, year, quarter); the first row's `pct_change` is NaN
(serialized as an explicit null), a row whose predecessor belongs to a
different distributor is that distributor's first row and is NaN too,
and a row whose predecessor belongs to the same distributor carries
`pctChangeVal prev_waste waste`, i.e. `(waste_t / waste_{t-1} - 1) * 100`
rounded to 2 decimals when the previous waste is nonzero, and NaN or a
signed infinity when it is zero; the trend endpoint serializes exactly
the NaN cells as null. -/
theorem C3_pct_change_columns (rows : List EdaRow) :
    List.Pairwise dqLe (build_distributor_quarter_df rows) ∧
    (0 < (build_distributor_quarter_df rows).length →
      ((build_distributor_quarter_df rows).getD 0 dq0).pct_change = .nan) ∧
    (∀ i : ℕ, i + 1 < (build_distributor_quarter_df rows).length →
      (((build_distributor_quarter_df rows).getD (i + 1) dq0).distributorId =
          ((build_distributor_quarter_df rows).getD i dq0).distributorId →
        ((build_distributor_quarter_df rows).getD (i + 1) dq0).pct_change =
          pctChangeVal ((build_distributor_quarter_df rows).getD i dq0).total_waste
            ((build_distributor_quarter_df rows).getD (i + 1) dq0).total_waste) ∧
      (((build_distributor_quarter_df rows).getD (i + 1) dq0).distributorId ≠
          ((build_distributor_quarter_df rows).getD i dq0).distributorId →
        ((build_distributor_quarter_df rows).getD (i + 1) dq0).pct_change = .nan)) ∧
    (∀ v : FVal, serializedPct v = none ↔ v = .nan) := by
  refine ⟨?_, ?_, ?_, ?_⟩
  · have hs : List.Sorted aggLe (List.insertionSort aggLe (aggRows rows)) :=
      List.sorted_insertionSort aggLe (aggRows rows)
    have hmap : ((List.insertionSort aggLe (aggRows rows)).map
        (fun a => (a.distributorId, a.yearOnly, a.quarter))).Pairwise
        (lexLe2 (fun x y : ℤ => x < y) (lexLe2 (fun x y : ℤ => x < y) strLe)) :=
      List.pairwise_map.mpr hs
    rw [← attachPct_map_key none] at hmap
    exact (List.pairwise_map
      (f := fun r : DQRow => (r.distributorId, r.yearOnly, r.quarter))).mp hmap
  · exact attachPct_first _
  · intro i h
    exact attachPct_consecutive _ none i h
  · intro v
    cases v <;> simp [serializedPct]

/-- Witness for C3 at a two-quarter distributor with nonzero waste:
first row null, second row carries the rounded formula value. -/
theorem C3_pct_change_columns_witness :
    (0 < (build_distributor_quarter_df exRowsB).length ∧
      ((build_distributor_quarter_df exRowsB).getD 0 dq0).pct_change = .nan) ∧
    (1 < (build_distributor_quarter_df exRowsB).length ∧
      ((build_distributor_quarter_df exRowsB).getD 1 dq0).pct_change =
        pctChangeVal ((build_distributor_quarter_df exRowsB).getD 0 dq0).total_waste
          ((build_distributor_quarter_df exRowsB).getD 1 dq0).total_waste) := by
  have h0 : 0 < (build_distributor_quarter_df exRowsB).length := by
    with_unfolding_all decide
  have h1 : 1 < (build_distributor_quarter_df exRowsB).length := by
    with_unfolding_all decide
  have hd : ((build_distributor_quarter_df exRowsB).getD 1 dq0).distributorId =
      ((build_distributor_quarter_df exRowsB).getD 0 dq0).distributorId := by
    with_unfolding_all decide
  exact ⟨⟨h0, (C3_pct_change_columns exRowsB).2.1 h0⟩,
    ⟨h1, ((C3_pct_change_columns exRowsB).2.2.1 0 h1).1 hd⟩⟩

/-- C3 counterexample: with a zero-waste first quarter followed by a
nonzero quarter for the same distributor, the second row's
`pct_change` is `+Infinity`, not the claimed rounded finite number. -/
theorem C3_counterexample :
    ((build_distributor_quarter_df cex3rows).getD 1 dq0).distributorId =
      ((build_distributor_quarter_df cex3rows).getD 0 dq0).distributorId ∧
    1 < (build_distributor_quarter_df cex3rows).length ∧
    ((build_distributor_quarter_df cex3rows).getD 1 dq0).pct_change = .inf ∧
    ((build_distributor_quarter_df cex3rows).getD 1 dq0).pct_change ≠
      .fin (pctChangeClaim
        ((build_distributor_quarter_df cex3rows).getD 0 dq0).total_waste
        ((build_distributor_quarter_df cex3rows).getD 1 dq0).total_waste) := by
  with_unfolding_all decide

/-! ## Claims C4, C5 -/

/-- C4 (amended): when the two quarter labels are identical (and
parse), the same-quarter branch returns an empty comparison when no
selected distributor is present in the quarter, and otherwise a single
entry built from the first matching row only — delta 0, flat trend
"➖", and `status_change` equal to "{s} → {s}" with that row's own
status — even when two selected distributors are present. -/
theorem C4_same_quarter (dq : List DQRow) (state qa d1 : String) (d2 : Option String)
    (hne : dq.filter (fun r => r.usState = state) ≠ []) (y : ℤ) (q : String)
    (hp : parse_quarter qa = some (y, q)) :
    (selectQuarter (dq.filter (fun r => r.usState = state)) y q (distributorsParam d1 d2) = [] →
      quarter_comparison dq state qa qa d1 d2 = .ok .emptyRes) ∧
    (∀ base rest,
      selectQuarter (dq.filter (fun r => r.usState = state)) y q (distributorsParam d1 d2) =
        base :: rest →
      quarter_comparison dq state qa qa d1 d2 =
        .ok (.full state qa qa
          [⟨base.distributorId, round2 base.total_waste, round2 base.total_waste, 0, "➖",
            statusStr base.status ++ " → " ++ statusStr base.status⟩])) := by
  unfold quarter_comparison
  rw [if_neg hne, hp]
  simp only [if_pos rfl]
  constructor
  · intro h
    rw [h]
    simp only [if_true]
  · intro base rest h
    rw [h]
    simp only [if_true]

/-- Witness for C4: one selected distributor present in the quarter
yields exactly its self-comparison entry. -/
theorem C4_same_quarter_witness :
    quarter_comparison dqTableEx "TX" "2022 Q1" "2022 Q1" "1" none =
      .ok (.full "TX" "2022 Q1" "2022 Q1"
        [⟨1, round2 40, round2 40, 0, "➖",
          statusStr .VeryGood ++ " → " ++ statusStr .VeryGood⟩]) := by
  have hne : dqTableEx.filter (fun r => r.usState = "TX") ≠ [] := by
    with_unfolding_all decide
  have hp : parse_quarter "2022 Q1" = some (2022, "Q1") := by
    with_unfolding_all decide
  have hsel : selectQuarter (dqTableEx.filter (fun r => r.usState = "TX")) 2022 "Q1"
      (distributorsParam "1" none) =
      (⟨1, "TX", 2022, "Q1", 100, 10, 50, 40, -20, .nan, .VeryGood⟩ : DQRow) :: [] := by
    with_unfolding_all decide
  exact (C4_same_quarter dqTableEx "TX" "2022 Q1" "1" none hne 2022 "Q1" hp).2 _ _ hsel

/-- C4 counterexample: with the same label twice and two selected
distributors both present in that quarter, the endpoint returns a
single entry (for the first row's distributor 1) instead of one entry
per selected distributor — distributor 2 is selected and present but
absent from the result. -/
theorem C4_counterexample :
    quarter_comparison dqTableEx "TX" "2022 Q1" "2022 Q1" "1" (some "2") =
      .ok (.full "TX" "2022 Q1" "2022 Q1"
        [⟨1, 40, 40, 0, "➖", "Very Good → Very Good"⟩]) ∧
    2 ∈ (selectQuarter (dqTableEx.filter (fun r => r.usState = "TX")) 2022 "Q1"
        (distributorsParam "1" (some "2"))).map (fun r => r.distributorId) ∧
    ((QCResult.full "TX" "2022 Q1" "2022 Q1"
        [⟨1, 40, 40, 0, "➖", "Very Good → Very Good"⟩]).comparison).map
      (fun e => e.distributor_id) = [1] := by
  exact ⟨by with_unfolding_all rfl, by decide, by decide⟩

/-- C5: in the two-quarter comparison with distinct labels, an empty
state filter fails with the not-found error, and an empty outer join of
the two quarter-filtered, distributor-restricted subsets returns an
empty comparison list rather than failing. -/
theorem C5_not_found_and_empty_join (dq : List DQRow) (state qa qb d1 : String)
    (d2 : Option String) (hqq : qa ≠ qb) :
    (dq.filter (fun r => r.usState = state) = [] →
      quarter_comparison dq state qa qb d1 d2 = .error .notFound) ∧
    (∀ (y1 : ℤ) (q1 : String) (y2 : ℤ) (q2 : String),
      dq.filter (fun r => r.usState = state) ≠ [] →
      parse_quarter qa = some (y1, q1) → parse_quarter qb = some (y2, q2) →
      selectQuarter (dq.filter (fun r => r.usState = state)) y1 q1
        (distributorsParam d1 d2) = [] →
      selectQuarter (dq.filter (fun r => r.usState = state)) y2 q2
        (distributorsParam d1 d2) = [] →
      quarter_comparison dq state qa qb d1 d2 = .ok .emptyRes) := by
  constructor
  · intro h
    unfold quarter_comparison
    rw [if_pos h]
  · intro y1 q1 y2 q2 hne hp1 hp2 h1 h2
    unfold quarter_comparison
    rw [if_neg hne, hp1, hp2]
    simp only [if_neg hqq]
    rw [h1, h2]
    rfl

/-- Witness for C5: a state with no rows fails with not-found, and an
absent distributor in both quarters yields the empty comparison. -/
theorem C5_not_found_and_empty_join_witness :
    quarter_comparison dqTableEx "ZZ" "2022 Q1" "2023 Q2" "1" none = .error .notFound ∧
    quarter_comparison dqTableEx "TX" "2022 Q1" "2023 Q2" "99" none = .ok .emptyRes := by
  have hqq : ("2022 Q1" : String) ≠ "2023 Q2" := by decide
  constructor
  · exact (C5_not_found_and_empty_join dqTableEx "ZZ" "2022 Q1" "2023 Q2" "1" none hqq).1
      (by with_unfolding_all decide)
  · exact (C5_not_found_and_empty_join dqTableEx "TX" "2022 Q1" "2023 Q2" "99" none hqq).2
      2022 "Q1" 2023 "Q2"
      (by with_unfolding_all decide) (by with_unfolding_all decide)
      (by with_unfolding_all decide) (by with_unfolding_all decide)
      (by with_unfolding_all decide)

/-! ## Deduplication lemmas for the alert engine -/

instance : IsTotal Alert alertPrioGe := ⟨fun a b => le_total (prio b.severity) (prio a.severity)⟩

instance : IsTrans Alert alertPrioGe :=
  ⟨fun _ _ _ h1 h2 => le_trans h2 h1⟩

theorem mem_of_mem_dedupAux :
    ∀ {seen : List ℤ} {l : List Alert} {x : Alert}, x ∈ dedupAux seen l →
      x ∈ l ∧ x.distributor_id ∉ seen := by
  intro seen l
  induction l generalizing seen with
  | nil => intro x hx; simp [dedupAux] at hx
  | cons a rest ih =>
    intro x hx
    by_cases h : a.distributor_id ∈ seen
    · rw [dedupAux, if_pos h] at hx
      obtain ⟨h1, h2⟩ := ih hx
      exact ⟨List.mem_cons_of_mem a h1, h2⟩
    · rw [dedupAux, if_neg h] at hx
      rcases List.mem_cons.1 hx with rfl | hx
      · exact ⟨List.mem_cons_self x rest, h⟩
      · obtain ⟨h1, h2⟩ := ih hx
        exact ⟨List.mem_cons_of_mem a h1, fun hs => h2 (List.mem_cons_of_mem _ hs)⟩

theorem dedupAux_count (d : ℤ) :
    ∀ (l : List Alert) (seen : List ℤ),
      (d ∈ seen → ((dedupAux seen l).filter (fun a => a.distributor_id = d)).length = 0) ∧
      (d ∉ seen → ((dedupAux seen l).filter (fun a => a.distributor_id = d)).length =
        (if ∃ a ∈ l, a.distributor_id = d then 1 else 0)) := by
  intro l
  induction l with
  | nil => intro seen; simp [dedupAux]
  | cons a rest ih =>
    intro seen
    by_cases hA : a.distributor_id ∈ seen
    · rw [dedupAux, if_pos hA]
      constructor
      · intro hd; exact (ih seen).1 hd
      · intro hd
        have hne : a.distributor_id ≠ d := fun he => hd (he ▸ hA)
        have hiff : (∃ x ∈ a :: rest, x.distributor_id = d) ↔
            (∃ x ∈ rest, x.distributor_id = d) := by
          constructor
          · rintro ⟨x, hx, hxd⟩
            rcases List.mem_cons.1 hx with rfl | hx2
            · exact absurd hxd hne
            · exact ⟨x, hx2, hxd⟩
          · rintro ⟨x, hx, hxd⟩
            exact ⟨x, List.mem_cons_of_mem a hx, hxd⟩
        rw [(ih seen).2 hd]
        simp only [hiff]
    · rw [dedupAux, if_neg hA]
      constructor
      · intro hd
        have hne : a.distributor_id ≠ d := fun he => hA (he ▸ hd)
        rw [List.filter_cons_of_neg (by simp [hne])]
        exact (ih (a.distributor_id :: seen)).1 (List.mem_cons_of_mem _ hd)
      · intro hd
        by_cases he : a.distributor_id = d
        · rw [List.filter_cons_of_pos (by simp [he])]
          have h0 := (ih (a.distributor_id :: seen)).1 (he ▸ List.mem_cons_self _ _)
          simp only [List.length_cons, h0]
          rw [if_pos ⟨a, List.mem_cons_self a rest, he⟩]
        · rw [List.filter_cons_of_neg (by simp [he])]
          have hd2 : d ∉ a.distributor_id :: seen := by
            intro hc
            rcases List.mem_cons.1 hc with hc | hc
            · exact he hc.symm
            · exact hd hc
          have hiff : (∃ x ∈ a :: rest, x.distributor_id = d) ↔
              (∃ x ∈ rest, x.distributor_id = d) := by
            constructor
            · rintro ⟨x, hx, hxd⟩
              rcases List.mem_cons.1 hx with rfl | hx2
              · exact absurd hxd he
              · exact ⟨x, hx2, hxd⟩
            · rintro ⟨x, hx, hxd⟩
              exact ⟨x, List.mem_cons_of_mem a hx, hxd⟩
          rw [(ih (a.distributor_id :: seen)).2 hd2]
          simp only [hiff]

theorem dedupAux_max_prio :
    ∀ {l : List Alert} {seen : List ℤ} {x : Alert}, List.Pairwise alertPrioGe l →
      x ∈ dedupAux seen l → ∀ b ∈ l, b.distributor_id = x.distributor_id →
        prio b.severity ≤ prio x.severity := by
  intro l
  induction l with
  | nil => intro seen x _ hx; simp [dedupAux] at hx
  | cons a rest ih =>
    intro seen x hp hx b hb hbd
    obtain ⟨hpa, hprest⟩ := List.pairwise_cons.1 hp
    by_cases hA : a.distributor_id ∈ seen
    · rw [dedupAux, if_pos hA] at hx
      rcases List.mem_cons.1 hb with rfl | hb
      · exact absurd (hbd ▸ (mem_of_mem_dedupAux hx).2) (fun hc => hc hA)
      · exact ih hprest hx b hb hbd
    · rw [dedupAux, if_neg hA] at hx
      rcases List.mem_cons.1 hx with rfl | hx
      · rcases List.mem_cons.1 hb with rfl | hb
        · exact le_refl _
        · exact hpa b hb
      · rcases List.mem_cons.1 hb with rfl | hb
        · have : x.distributor_id ≠ b.distributor_id := by
            have h2 := (mem_of_mem_dedupAux hx).2
            intro hc
            exact h2 (hc ▸ List.mem_cons_self _ _)
          exact absurd hbd (fun hc => this hc.symm)
        · exact ih hprest hx b hb hbd

theorem dedupAux_pairwise_ne :
    ∀ (l : List Alert) (seen : List ℤ),
      List.Pairwise (fun a b => a.distributor_id ≠ b.distributor_id) (dedupAux seen l) := by
  intro l
  induction l with
  | nil => intro seen; simp [dedupAux]
  | cons a rest ih =>
    intro seen
    by_cases hA : a.distributor_id ∈ seen
    · rw [dedupAux, if_pos hA]; exact ih seen
    · rw [dedupAux, if_neg hA]
      refine List.pairwise_cons.2 ⟨?_, ih _⟩
      intro y hy hc
      exact (mem_of_mem_dedupAux hy).2 (hc ▸ List.mem_cons_self _ _)

/-! ## Claims C6, C7 -/

/-- C6: after deduplication, every distributor with at least one
pre-dedup alert has exactly one alert left, that alert is one of its
own pre-dedup alerts, and its severity has maximal priority
(HIGH 3 > MEDIUM 2 > LOW 1) among that distributor's pre-dedup alerts. -/
theorem C6_dedup_one_max (df : List RawRow) (d : ℤ)
    (h : ∃ a ∈ buildAlerts df, a.distributor_id = d) :
    ((dedupAlerts (buildAlerts df)).filter (fun a => a.distributor_id = d)).length = 1 ∧
    ∀ x ∈ dedupAlerts (buildAlerts df), x.distributor_id = d →
      x ∈ buildAlerts df ∧
      ∀ b ∈ buildAlerts df, b.distributor_id = d → prio b.severity ≤ prio x.severity := by
  constructor
  · have h2 : ∃ a ∈ sortAlerts (buildAlerts df), a.distributor_id = d := by
      obtain ⟨a, ha, hd⟩ := h
      exact ⟨a, by simpa [sortAlerts] using ha, hd⟩
    have hc := (dedupAux_count d (sortAlerts (buildAlerts df)) []).2 (by simp)
    rw [dedupAlerts, hc, if_pos h2]
  · intro x hx hxd
    have hsorted : List.Pairwise alertPrioGe (sortAlerts (buildAlerts df)) :=
      List.sorted_insertionSort alertPrioGe (buildAlerts df)
    have hmem := mem_of_mem_dedupAux hx
    refine ⟨by simpa [sortAlerts] using hmem.1, ?_⟩
    intro b hb hbd
    exact dedupAux_max_prio hsorted hx b (by simpa [sortAlerts] using hb)
      (hbd.trans hxd.symm)

/-- Witness for C6: distributor 7 triggers both the HIGH and the MEDIUM
rule, and exactly one alert survives deduplication. -/
theorem C6_dedup_one_max_witness :
    ((dedupAlerts (buildAlerts alertsDfEx)).filter
      (fun a => a.distributor_id = 7)).length = 1 :=
  (C6_dedup_one_max alertsDfEx 7 (by with_unfolding_all decide)).1

theorem dedup_filter_le_distinct (alerts : List Alert) (s : Sev) :
    ((dedupAlerts alerts).filter (fun a => a.severity = s)).length ≤
      sevDistinctCount alerts s := by
  have hpw : List.Pairwise (fun a b : Alert => a.distributor_id ≠ b.distributor_id)
      (dedupAlerts alerts) := dedupAux_pairwise_ne _ _
  have hpwL : List.Pairwise (fun a b : Alert => a.distributor_id ≠ b.distributor_id)
      ((dedupAlerts alerts).filter (fun a => a.severity = s)) :=
    hpw.filter _
  have hnodup : (((dedupAlerts alerts).filter (fun a => a.severity = s)).map
      (fun a => a.distributor_id)).Nodup :=
    List.pairwise_map.mpr hpwL
  have hsub : ∀ i ∈ (((dedupAlerts alerts).filter (fun a => a.severity = s)).map
      (fun a => a.distributor_id)),
      i ∈ ((alerts.filter (fun a => a.severity = s)).map (fun a => a.distributor_id)) := by
    intro i hi
    obtain ⟨x, hxL, rfl⟩ := List.mem_map.1 hi
    have hx1 : x ∈ dedupAlerts alerts := List.mem_of_mem_filter hxL
    have hx2 : x.severity = s := by simpa using List.of_mem_filter hxL
    have hx3 : x ∈ alerts := by
      have := (mem_of_mem_dedupAux hx1).1
      simpa [sortAlerts] using this
    exact List.mem_map.2 ⟨x, List.mem_filter.2 ⟨hx3, by simpa using hx2⟩, rfl⟩
  calc ((dedupAlerts alerts).filter (fun a => a.severity = s)).length
      = (((dedupAlerts alerts).filter (fun a => a.severity = s)).map
          (fun a => a.distributor_id)).length := (List.length_map _ _).symm
    _ = (((dedupAlerts alerts).filter (fun a => a.severity = s)).map
          (fun a => a.distributor_id)).toFinset.card :=
        (List.toFinset_card_of_nodup hnodup).symm
    _ ≤ ((alerts.filter (fun a => a.severity = s)).map
          (fun a => a.distributor_id)).toFinset.card := by
        apply Finset.card_le_card
        intro i hi
        rw [List.mem_toFinset] at hi ⊢
        exact hsub i hi
    _ = ((alerts.filter (fun a => a.severity = s)).map
          (fun a => a.distributor_id)).dedup.length := List.card_toFinset _
    _ = sevDistinctCount alerts s := rfl

theorem get_alerts_summary (df : List RawRow) (sv dd st : String)
    (hd : dd = "ALL" ∨ (strToInt dd).isSome) (hne : buildAlerts df ≠ []) :
    (get_alerts df sv dd st).map (fun r => r.summary) = .ok (mkSummary (buildAlerts df)) := by
  unfold get_alerts
  rw [if_neg hne]
  by_cases hAll : dd = "ALL"
  · simp [hAll, Except.map]
  · rcases hd with rfl | hs
    · exact absurd rfl hAll
    · obtain ⟨n, hn⟩ := Option.isSome_iff_exists.1 hs
      simp [hAll, hn, Except.map]

/-- C7: the summary counts distinct distributors per severity bucket of
the full pre-deduplication alert set; it is the same response component
whatever the severity/distributor/state filters are (for well-formed
distributor filters), and for every severity it bounds the number of
alerts of that severity left after deduplication. -/
theorem C7_summary_pre_dedup (df : List RawRow) (s1 d1 t1 s2 d2 t2 : String)
    (hd1 : d1 = "ALL" ∨ (strToInt d1).isSome) (hd2 : d2 = "ALL" ∨ (strToInt d2).isSome) :
    (buildAlerts df ≠ [] →
      (get_alerts df s1 d1 t1).map (fun r => r.summary) = .ok (mkSummary (buildAlerts df))) ∧
    ((get_alerts df s1 d1 t1).map (fun r => r.summary) =
      (get_alerts df s2 d2 t2).map (fun r => r.summary)) ∧
    (∀ s : Sev,
      ((dedupAlerts (buildAlerts df)).filter (fun a => a.severity = s)).length ≤
        sevDistinctCount (buildAlerts df) s) := by
  refine ⟨fun hne => get_alerts_summary df s1 d1 t1 hd1 hne, ?_, ?_⟩
  · by_cases hne : buildAlerts df = []
    · unfold get_alerts
      rw [if_pos hne, if_pos hne]
    · rw [get_alerts_summary df s1 d1 t1 hd1 hne, get_alerts_summary df s2 d2 t2 hd2 hne]
  · intro s
    exact dedup_filter_le_distinct (buildAlerts df) s

/-- Witness for C7 at the concrete one-distributor dataset, with the
all-pass filters against concrete severity/distributor/state filters. -/
theorem C7_summary_pre_dedup_witness :
    (get_alerts alertsDfEx "ALL" "ALL" "ALL").map (fun r => r.summary) =
      (get_alerts alertsDfEx "HIGH" "7" "TX").map (fun r => r.summary) ∧
    ((dedupAlerts (buildAlerts alertsDfEx)).filter
        (fun a => a.severity = Sev.HIGH)).length ≤
      sevDistinctCount (buildAlerts alertsDfEx) Sev.HIGH := by
  have h := C7_summary_pre_dedup alertsDfEx "ALL" "ALL" "ALL" "HIGH" "7" "TX"
    (Or.inl rfl) (Or.inr (by with_unfolding_all decide))
  exact ⟨h.2.1, h.2.2 Sev.HIGH⟩

/-! ## Claim C8 -/

/-- C8 (amended): each relationship bucket holds the first at most
five matching pairs in row-major iteration order over the feature
names (`.head(5)` without any sort), all bucket members satisfy their
bucket's threshold — `|r| >= 0.75` for strong, `0.4 <= |r| < 0.75`
for moderate, signed `r <= -0.4` for inverse — the strong bucket is an
order-preserving sublist of the flattened relationship list of size
`min 5 (number of qualifying pairs)`, and every unordered pair of
distinct feature names appears in the flattened list in both
orientations. -/
theorem C8_buckets_first_five (features : List String) (m : List (List (Option ℚ))) :
    (∀ x ∈ strongBucket features m, oge (relAbs x) (3 / 4)) ∧
    (strongBucket features m).length = min 5 (qualifyingStrong features m).length ∧
    (strongBucket features m).Sublist (relationships features m) ∧
    (∀ x ∈ moderateBucket features m, oge (relAbs x) (2 / 5) ∧ olt (relAbs x) (3 / 4)) ∧
    (∀ x ∈ inverseBucket features m, ole x.value (-(2 / 5))) ∧
    (∀ a ∈ features, ∀ b ∈ features, a ≠ b →
      (⟨a, b, lookupCorr features m a b⟩ : CorrRel) ∈ relationships features m ∧
      (⟨b, a, lookupCorr features m b a⟩ : CorrRel) ∈ relationships features m) := by
  refine ⟨?_, ?_, ?_, ?_, ?_, ?_⟩
  · intro x hx
    have hx2 : x ∈ (relationships features m).filter
        (fun r => decide (oge (relAbs r) (3 / 4))) := List.take_subset 5 _ hx
    exact of_decide_eq_true (List.mem_filter.1 hx2).2
  · exact List.length_take 5 _
  · exact (List.take_sublist 5 _).trans (List.filter_sublist _)
  · intro x hx
    have hx2 : x ∈ (relationships features m).filter
        (fun r => decide (oge (relAbs r) (2 / 5) ∧ olt (relAbs r) (3 / 4))) :=
      List.take_subset 5 _ hx
    exact of_decide_eq_true (List.mem_filter.1 hx2).2
  · intro x hx
    have hx2 : x ∈ (relationships features m).filter
        (fun r => decide (ole r.value (-(2 / 5)))) := List.take_subset 5 _ hx
    exact of_decide_eq_true (List.mem_filter.1 hx2).2
  · intro a ha b hb hab
    constructor
    · exact List.mem_flatMap.2 ⟨a, ha,
        List.mem_filterMap.2 ⟨b, hb, by rw [if_pos hab]⟩⟩
    · exact List.mem_flatMap.2 ⟨b, hb,
        List.mem_filterMap.2 ⟨a, ha, by rw [if_pos (Ne.symm hab)]⟩⟩

/-- Witness for C8: the pair (a, b) of the concrete three-feature
matrix appears in both orientations in the relationship list. -/
theorem C8_buckets_first_five_witness :
    (⟨"a", "b", lookupCorr corrFeatures3 corrM3 "a" "b"⟩ : CorrRel) ∈
      relationships corrFeatures3 corrM3 ∧
    (⟨"b", "a", lookupCorr corrFeatures3 corrM3 "b" "a"⟩ : CorrRel) ∈
      relationships corrFeatures3 corrM3 :=
  (C8_buckets_first_five corrFeatures3 corrM3).2.2.2.2.2 "a" (by decide) "b" (by decide)
    (by decide)

/-- C8 counterexample: on a matrix whose six off-diagonal values are
all at least 0.75 but not in descending order, the strong bucket is
not the top five by descending `|r|`: it keeps an `|r| = 0.8` pair
while excluding an `|r| = 0.95` pair. -/
theorem C8_counterexample :
    ¬ IsTop5ByAbs (strongBucket corrFeatures3 corrM3)
      (qualifyingStrong corrFeatures3 corrM3) := by
  with_unfolding_all decide

/-! ## Claim C9 -/

theorem zipmul_symm (a b : ℚ) :
    ∀ (xs ys : List ℚ),
      ((xs.zip ys).map (fun p => (p.1 - a) * (p.2 - b))).sum =
        ((ys.zip xs).map (fun p => (p.1 - b) * (p.2 - a))).sum := by
  intro xs
  induction xs with
  | nil => intro ys; cases ys <;> simp
  | cons x xs ih =>
    intro ys
    cases ys with
    | nil => simp
    | cons y ys =>
      simp only [List.zip_cons_cons, List.map_cons, List.sum_cons, ih]
      ring_nf

theorem cpsum_symm (xs ys : List ℚ) : cpsum xs ys = cpsum ys xs := by
  unfold cpsum
  exact zipmul_symm (qmean xs) (qmean ys) xs ys

theorem zip_self (xs : List ℚ) : xs.zip xs = xs.map (fun x => (x, x)) := by
  induction xs with
  | nil => rfl
  | cons x xs ih => simp [ih]

theorem cpsum_self (xs : List ℚ) : cpsum xs xs = sqsum xs := by
  unfold cpsum sqsum
  rw [zip_self, List.map_map]
  congr 1
  apply List.map_congr_left
  intro x _
  simp only [Function.comp]
  ring

theorem sqsum_nonneg (xs : List ℚ) : 0 ≤ sqsum xs := by
  apply List.sum_nonneg
  intro q hq
  obtain ⟨x, _, rfl⟩ := List.mem_map.1 hq
  positivity

theorem corrEntry_symm (xs ys : List ℚ) : corrEntry xs ys = corrEntry ys xs := by
  unfold corrEntry
  by_cases h : sqsum xs = 0 ∨ sqsum ys = 0
  · rw [if_pos h, if_pos h.symm]
  · rw [if_neg h, if_neg (fun hc => h hc.symm), cpsum_symm,
      mul_comm ((sqsum xs : ℚ) : ℝ) ((sqsum ys : ℚ) : ℝ)]

theorem corrEntry_self (xs : List ℚ) (h : sqsum xs ≠ 0) : corrEntry xs xs = some 1 := by
  unfold corrEntry
  rw [if_neg (by simp [h])]
  rw [cpsum_self]
  have hpos : (0 : ℝ) < ((sqsum xs : ℚ) : ℝ) := by
    have h0 : (0 : ℚ) < sqsum xs := lt_of_le_of_ne (sqsum_nonneg xs) (Ne.symm h)
    exact_mod_cast h0
  rw [Real.sqrt_mul_self hpos.le, div_self hpos.ne']
  unfold round2R
  norm_num

theorem corrMatrix_get (cols : List (List ℚ)) (i j : ℕ) (hi : i < cols.length)
    (hj : j < cols.length) :
    mgetCorr (corrMatrix cols) i j = corrEntry (cols.getD i []) (cols.getD j []) := by
  unfold mgetCorr corrMatrix
  have hi2 : i < (cols.map (fun x => cols.map (fun y => corrEntry x y))).length := by
    simpa using hi
  rw [List.getD_eq_getElem _ _ hi2, List.getElem_map]
  have hj2 : j < (cols.map (fun y => corrEntry cols[i] y)).length := by simpa using hj
  rw [List.getD_eq_getElem _ _ hj2, List.getElem_map]
  rw [List.getD_eq_getElem _ _ hi, List.getD_eq_getElem _ _ hj]

/-- C9 (amended): for a dataset with at least 2 numeric columns, the
rounded Pearson matrix is symmetric as a whole (including undefined
NaN cells), and a diagonal entry equals 1.0 exactly when its column is
non-constant (nonzero centered sum of squares); a constant column
yields an undefined (NaN) diagonal entry rather than 1.0. -/
theorem C9_matrix_symmetric_diag (cols : List (List ℚ)) (i j : ℕ) (_h2 : 2 ≤ cols.length)
    (hi : i < cols.length) (hj : j < cols.length) :
    mgetCorr (corrMatrix cols) i j = mgetCorr (corrMatrix cols) j i ∧
    (sqsum (cols.getD i []) ≠ 0 → mgetCorr (corrMatrix cols) i i = some 1) := by
  constructor
  · rw [corrMatrix_get cols i j hi hj, corrMatrix_get cols j i hj hi, corrEntry_symm]
  · intro h
    rw [corrMatrix_get cols i i hi hi]
    exact corrEntry_self _ h

/-- Witness for C9 on two non-constant columns. -/
theorem C9_matrix_symmetric_diag_witness :
    mgetCorr (corrMatrix colsW) 0 1 = mgetCorr (corrMatrix colsW) 1 0 ∧
    mgetCorr (corrMatrix colsW) 0 0 = some 1 := by
  have ha := C9_matrix_symmetric_diag colsW 0 1 (by norm_num [colsW])
    (by norm_num [colsW]) (by norm_num [colsW])
  have hb := C9_matrix_symmetric_diag colsW 0 0 (by norm_num [colsW])
    (by norm_num [colsW]) (by norm_num [colsW])
  refine ⟨ha.1, hb.2 ?_⟩
  norm_num [colsW, sqsum, qmean]

/-- C9 counterexample: with a constant first column, the diagonal
entry `matrix[0][0]` is NaN (undefined), not 1.0, although the dataset
has two numeric columns. -/
theorem C9_counterexample :
    2 ≤ colsConst.length ∧
    mgetCorr (corrMatrix colsConst) 0 0 = none ∧
    (none : Option ℝ) ≠ some (1 : ℝ) := by
  refine ⟨by norm_num [colsConst], ?_, by simp⟩
  have hz : sqsum (colsConst.getD 0 []) = 0 := by norm_num [colsConst, sqsum, qmean]
  rw [corrMatrix_get colsConst 0 0 (by norm_num [colsConst]) (by norm_num [colsConst])]
  unfold corrEntry
  rw [if_pos (Or.inl hz)]
